import Mathlib

/-!
Shallow embedding of the host-authoritative chess room of the repository
(`FriendRoomScreen`, `AiGameScreen`, `utils/clock`, `utils/storage`) and
proofs about the snapshot state machine, the clock model, the outcome
resolver and the persistence helpers.

Conventions of the embedding:
* JavaScript numbers holding wall-clock instants and millisecond durations
  are modelled as `Int` (the code only adds, subtracts, compares and takes
  `Math.max` of them).
* `chess.js` is an external oracle; it is modelled by an abstract
  `ChessEngine` structure whose fields are exactly the oracle operations
  the embedded code consumes.
* The two `Date.now()` reads inside one handler invocation are modelled by
  two explicit parameters `now` and `now'`.
* `localStorage` is modelled by a `StoredValue`: the stored string is
  missing, fails to parse as an array, or holds a list of games.
-/

namespace SyydChess

/-- Side = "w" | "b" (src/types). -/
inductive Side
  | w
  | b
deriving DecidableEq, Repr

/-- The non-null values of Winner = "white" | "black" | "draw" | null;
the `null` case is `Option.none` at use sites. -/
inductive WinnerTag
  | white
  | black
  | draw
deriving DecidableEq, Repr

/-- sideToLabel (utils/clock): "w" ↦ "white", "b" ↦ "black". -/
def sideToLabel : Side → WinnerTag
  | .w => .white
  | .b => .black

/-- oppositeSide (utils/clock). -/
def oppositeSide : Side → Side
  | .w => .b
  | .b => .w

/-- Status values of a RoomSnapshot: "waiting" | "playing" | "ended". -/
inductive RoomStatus
  | waiting
  | playing
  | ended
deriving DecidableEq, Repr

/-- Status values of the AI screen's LiveState: "playing" | "ended". -/
inductive LiveStatus
  | playing
  | ended
deriving DecidableEq, Repr

/-- The clocks record { w: number; b: number } (milliseconds). -/
structure Clocks where
  w : Int
  b : Int
deriving DecidableEq, Repr

/-- clocks[color] -/
def Clocks.get : Clocks → Side → Int
  | c, .w => c.w
  | c, .b => c.b

/-- { ...clocks, [color]: v } -/
def Clocks.set : Clocks → Side → Int → Clocks
  | c, .w, v => { c with w := v }
  | c, .b, v => { c with b := v }

/-- MoveRecord (src/types). -/
structure MoveRecord where
  ply : Nat
  side : Side
  san : String
  uci : String
  fenAfter : String
deriving DecidableEq, Repr

/-- RoomSnapshot (FriendRoomScreen). -/
structure RoomSnapshot where
  fen : String
  turn : Side
  status : RoomStatus
  resultWinner : Option WinnerTag
  resultReason : String
  moves : List MoveRecord
  lastMoveUci : Option String
  whiteName : String
  blackName : String
  drawOfferBy : Option Side
  clocks : Clocks
  initialMs : Int
  incrementMs : Int
  activeColor : Option Side
  lastTickAt : Int
deriving DecidableEq, Repr

/-- advanceClock (FriendRoomScreen, lines 130-162). -/
def advanceClock (snapshot : RoomSnapshot) (now : Int) : RoomSnapshot :=
  if snapshot.status ≠ RoomStatus.playing then snapshot
  else
    match snapshot.activeColor with
    | none => snapshot
    | some color =>
      let elapsed := now - snapshot.lastTickAt
      if elapsed ≤ 0 then snapshot
      else
        let remaining := snapshot.clocks.get color - elapsed
        let nextSnapshot : RoomSnapshot :=
          { snapshot with
            clocks := snapshot.clocks.set color (max 0 remaining)
            lastTickAt := now }
        if remaining ≤ 0 then
          { nextSnapshot with
            status := RoomStatus.ended
            activeColor := none
            resultWinner := some (sideToLabel (oppositeSide color))
            resultReason := "Flag" }
        else nextSnapshot

/-- The move object returned by chess.js `game.move(...)`, restricted to the
fields the embedded code reads: `san`, `from`, `to`, `promotion`. -/
structure MoveObj where
  san : String
  fromSq : String
  toSq : String
  promotion : Option String
deriving DecidableEq, Repr

/-- Abstract interface of the chess.js oracle, over an abstract type `Pos`
of engine states: `new Chess(fen)`, `fen()`, `turn()`, `move({from,to,promotion})`
(returning the move object together with the mutated engine state, or `none`
for an illegal move), and the terminal-condition predicates. -/
structure ChessEngine (Pos : Type) where
  ofFen : String → Pos
  fen : Pos → String
  turn : Pos → Side
  move : Pos → String → String → String → Option (MoveObj × Pos)
  isGameOver : Pos → Bool
  isCheckmate : Pos → Bool
  isStalemate : Pos → Bool
  isThreefoldRepetition : Pos → Bool
  isInsufficientMaterial : Pos → Bool

/-- applyUci (FriendRoomScreen, lines 65-71): slices the uci string into
`from`/`to`/`promotion` (defaulting the promotion piece to "q") and submits
it to the oracle. -/
def applyUci {Pos : Type} (E : ChessEngine Pos) (game : Pos) (uci : String) :
    Option (MoveObj × Pos) :=
  E.move game (uci.take 2) ((uci.drop 2).take 2)
    (if (uci.drop 4).take 1 = "" then "q" else (uci.drop 4).take 1)

/-- The { winner: Winner; reason: string } record. -/
structure GameOutcome where
  winner : Option WinnerTag
  reason : String
deriving DecidableEq, Repr

/-- getOutcomeFromChess (FriendRoomScreen, lines 83-120). -/
def getOutcomeFromChess {Pos : Type} (E : ChessEngine Pos) (game : Pos) :
    Option GameOutcome :=
  if ¬ E.isGameOver game then none
  else if E.isCheckmate game then
    some { winner := if E.turn game = Side.w then some WinnerTag.black else some WinnerTag.white
           reason := "Checkmate" }
  else if E.isStalemate game then
    some { winner := some WinnerTag.draw, reason := "Stalemate" }
  else if E.isThreefoldRepetition game then
    some { winner := some WinnerTag.draw, reason := "Threefold repetition" }
  else if E.isInsufficientMaterial game then
    some { winner := some WinnerTag.draw, reason := "Insufficient material" }
  else
    some { winner := some WinnerTag.draw, reason := "Draw" }

/-- finalizeGame (FriendRoomScreen, lines 297-306), as the pure snapshot
updater passed to `updateSnapshotAndBroadcast`. -/
def finalizeGame (previous : RoomSnapshot) (winner : Option WinnerTag)
    (reason : String) : RoomSnapshot :=
  { previous with
    status := RoomStatus.ended
    activeColor := none
    resultWinner := winner
    resultReason := reason
    drawOfferBy := none }

/-- hostApplyMove (FriendRoomScreen, lines 308-358), as the pure updater the
code installs with `setSnapshot`; returns the new snapshot together with the
`accepted` flag. `now` is the `Date.now()` read passed to `advanceClock`,
`now'` the one written into `lastTickAt` on success. -/
def hostApplyMove {Pos : Type} (E : ChessEngine Pos) (previous : RoomSnapshot)
    (uci : String) (moverSide : Side) (now now' : Int) : RoomSnapshot × Bool :=
  let current := advanceClock previous now
  if current.status ≠ RoomStatus.playing then (current, false)
  else if current.turn ≠ moverSide then (current, false)
  else
    match applyUci E (E.ofFen current.fen) uci with
    | none => (current, false)
    | some (move, chess) =>
      let nextMove : MoveRecord :=
        { ply := current.moves.length + 1
          side := moverSide
          san := move.san
          uci := move.fromSq ++ move.toSq ++ move.promotion.getD ""
          fenAfter := E.fen chess }
      let outcome := getOutcomeFromChess E chess
      ({ current with
          fen := E.fen chess
          turn := E.turn chess
          moves := current.moves ++ [nextMove]
          lastMoveUci := some nextMove.uci
          drawOfferBy := none
          clocks := current.clocks.set moverSide
            (current.clocks.get moverSide + current.incrementMs)
          activeColor := match outcome with
            | some _ => none
            | none => some (E.turn chess)
          lastTickAt := now'
          status := match outcome with
            | some _ => RoomStatus.ended
            | none => RoomStatus.playing
          resultWinner := match outcome with
            | some o => o.winner
            | none => none
          resultReason := match outcome with
            | some o => o.reason
            | none => "" }, true)

/-- The network messages the host's `connection.on("data")` handler reacts to
by mutating the snapshot (lines 389-451); the chat variant is included since
the claim ranges over it (it leaves the snapshot untouched). -/
inductive HostEvent
  | join (name : String)
  | move (uci : String)
  | chat
  | drawOffer
  | drawResponse (accepted : Bool)
  | resign
deriving DecidableEq, Repr

/-- The snapshot effect of the host's `connection.on("data")` dispatch
(FriendRoomScreen, lines 389-451), given the host's fixed side and name.
`now`/`now'` stand for the `Date.now()` reads of the invocation. -/
def hostHandleData {Pos : Type} (E : ChessEngine Pos) (hostSide : Side)
    (hostName : String) (previous : RoomSnapshot) (ev : HostEvent)
    (now now' : Int) : RoomSnapshot :=
  match ev with
  | .join name =>
    { previous with
      status := RoomStatus.playing
      turn := Side.w
      activeColor := some Side.w
      lastTickAt := now
      whiteName := if hostSide = Side.w then hostName else name
      blackName := if hostSide = Side.b then hostName else name }
  | .move uci => (hostApplyMove E previous uci (oppositeSide hostSide) now now').1
  | .chat => previous
  | .drawOffer => { previous with drawOfferBy := some (oppositeSide hostSide) }
  | .drawResponse accepted =>
    if accepted then finalizeGame previous (some WinnerTag.draw) "Agreement"
    else { previous with drawOfferBy := none }
  | .resign => finalizeGame previous (some (sideToLabel hostSide)) "Resign"

/-- onOfferDraw (host branch, lines 627-641): no-op unless playing, else
records the local side's draw offer. -/
def onOfferDrawHost (snapshot : RoomSnapshot) (localSide : Side) : RoomSnapshot :=
  if snapshot.status ≠ RoomStatus.playing then snapshot
  else { snapshot with drawOfferBy := some localSide }

/-- onAcceptDraw (host branch, lines 643-649). -/
def onAcceptDrawHost (snapshot : RoomSnapshot) : RoomSnapshot :=
  finalizeGame snapshot (some WinnerTag.draw) "Agreement"

/-- onDeclineDraw (host branch, lines 651-660). -/
def onDeclineDrawHost (snapshot : RoomSnapshot) : RoomSnapshot :=
  { snapshot with drawOfferBy := none }

/-- onResign (host branch, lines 662-670): no-op unless playing, else the
local side loses by resignation. -/
def onResignHost (snapshot : RoomSnapshot) (localSide : Side) : RoomSnapshot :=
  if snapshot.status ≠ RoomStatus.playing then snapshot
  else finalizeGame snapshot (some (sideToLabel (oppositeSide localSide))) "Resign"

namespace AiGame

/-- LiveState (AiGameScreen, lines 15-31). -/
structure LiveState where
  fen : String
  turn : Side
  status : LiveStatus
  resultWinner : Option WinnerTag
  resultReason : String
  moves : List MoveRecord
  lastMoveUci : Option String
  clocks : Clocks
  initialMs : Int
  incrementMs : Int
  activeColor : Option Side
  lastTickAt : Int
deriving DecidableEq, Repr

/-- advanceClock (AiGameScreen, lines 95-127). -/
def advanceClock (state : LiveState) (now : Int) : LiveState :=
  if state.status ≠ LiveStatus.playing then state
  else
    match state.activeColor with
    | none => state
    | some color =>
      let elapsed := now - state.lastTickAt
      if elapsed ≤ 0 then state
      else
        let remaining := state.clocks.get color - elapsed
        let updated : LiveState :=
          { state with
            clocks := state.clocks.set color (max 0 remaining)
            lastTickAt := now }
        if remaining ≤ 0 then
          { updated with
            status := LiveStatus.ended
            activeColor := none
            resultWinner := some (sideToLabel (oppositeSide color))
            resultReason := "Flag" }
        else updated

end AiGame

/-- The embedding of the AI screen's two-valued status into the room's
three-valued one, for comparing states of the two modes. -/
def liveStatusToRoom : LiveStatus → RoomStatus
  | .playing => RoomStatus.playing
  | .ended => RoomStatus.ended

/-- TimeControl (src/types). -/
structure TimeControl where
  initialMinutes : Int
  incrementSeconds : Int
deriving DecidableEq, Repr

/-- ChatMessage (src/types). -/
structure ChatMessage where
  id : String
  sender : String
  text : String
  timestamp : Int
  system : Option Bool
  side : Option Side
deriving DecidableEq, Repr

/-- Mode tags of a SavedGame: "ai" | "friend". -/
inductive GameMode
  | ai
  | friend
deriving DecidableEq, Repr

/-- SavedGame (src/types). -/
structure SavedGame where
  id : String
  mode : GameMode
  createdAt : Int
  whiteName : String
  blackName : String
  resultWinner : Option WinnerTag
  resultReason : String
  timeControl : Option TimeControl
  startFen : String
  finalFen : String
  pgn : String
  moves : List MoveRecord
  chats : List ChatMessage
deriving DecidableEq, Repr

/-- The state of `localStorage.getItem(GAMES_KEY)` as the storage helpers
observe it: the key is absent, the stored string fails `JSON.parse` or is
not an array, or it parses to a list of games. -/
inductive StoredValue
  | missing
  | unparseable
  | games (list : List SavedGame)
deriving DecidableEq, Repr

/-- The comparator `(a, b) => b.createdAt - a.createdAt` of `loadGames`,
as the "may precede" Boolean relation of a stable sort. -/
def byCreatedAtDesc (a b : SavedGame) : Bool :=
  decide (b.createdAt ≤ a.createdAt)

/-- loadGames (utils/storage, lines 18-33): `[]` when the key is missing or
the value unparseable / not an array, else the parsed list sorted by
`createdAt` descending (JS `Array.prototype.sort` is a stable
comparator sort, modelled by `List.mergeSort`). -/
def loadGames (store : StoredValue) : List SavedGame :=
  match store with
  | .missing => []
  | .unparseable => []
  | .games parsed => parsed.mergeSort byCreatedAtDesc

/-- saveGame (utils/storage, lines 35-40): prepends the new game to the
loaded list, keeps the first 200 entries, stores and returns them. The
first component is the new stored value, the second the returned list. -/
def saveGame (store : StoredValue) (game : SavedGame) :
    StoredValue × List SavedGame :=
  let games := loadGames store
  let next := (game :: games).take 200
  (StoredValue.games next, next)

/-! ### Helper lemmas about `advanceClock` -/

theorem advanceClock_of_not_playing {s : RoomSnapshot} {now : Int}
    (h : s.status ≠ RoomStatus.playing) : advanceClock s now = s := by
  simp [advanceClock, h]

theorem advanceClock_of_none {s : RoomSnapshot} {now : Int}
    (h : s.activeColor = none) : advanceClock s now = s := by
  unfold advanceClock
  rw [h]
  split <;> rfl

theorem advanceClock_of_elapsed_nonpos {s : RoomSnapshot} {now : Int}
    (h : now - s.lastTickAt ≤ 0) : advanceClock s now = s := by
  unfold advanceClock
  split
  · rfl
  · split
    · rfl
    · simp [h]

theorem advanceClock_active {s : RoomSnapshot} {now : Int} {color : Side}
    (h1 : s.status = RoomStatus.playing) (hac : s.activeColor = some color)
    (h2 : 0 < now - s.lastTickAt) :
    advanceClock s now =
      if s.clocks.get color - (now - s.lastTickAt) ≤ 0 then
        { s with
          clocks := s.clocks.set color (max 0 (s.clocks.get color - (now - s.lastTickAt)))
          lastTickAt := now
          status := RoomStatus.ended
          activeColor := none
          resultWinner := some (sideToLabel (oppositeSide color))
          resultReason := "Flag" }
      else
        { s with
          clocks := s.clocks.set color (max 0 (s.clocks.get color - (now - s.lastTickAt)))
          lastTickAt := now } := by
  unfold advanceClock
  rw [hac]
  simp only [h1, ne_eq, not_true_eq_false, if_false, ite_false]
  rw [if_neg (by omega)]

/-- Claim C2: `advanceClock s now` returns `s` unchanged when `s.status` is
not "playing", or `s.activeColor` is null, or `now - s.lastTickAt ≤ 0`;
otherwise it subtracts the elapsed time from the active side's clock floored
at zero and sets `lastTickAt` to `now`, and when the remaining time reaches
zero it additionally sets `status` to "ended", `activeColor` to null and the
result to winner = the opposite of the formerly active side, reason "Flag". -/
theorem advanceClock_correct (s : RoomSnapshot) (now : Int) :
    ((s.status ≠ RoomStatus.playing ∨ s.activeColor = none ∨
        now - s.lastTickAt ≤ 0) → advanceClock s now = s) ∧
    (∀ color : Side, s.status = RoomStatus.playing → s.activeColor = some color →
      0 < now - s.lastTickAt →
      (0 < s.clocks.get color - (now - s.lastTickAt) →
          advanceClock s now =
            { s with
              clocks := s.clocks.set color (s.clocks.get color - (now - s.lastTickAt))
              lastTickAt := now }) ∧
      (s.clocks.get color - (now - s.lastTickAt) ≤ 0 →
          advanceClock s now =
            { s with
              clocks := s.clocks.set color 0
              lastTickAt := now
              status := RoomStatus.ended
              activeColor := none
              resultWinner := some (sideToLabel (oppositeSide color))
              resultReason := "Flag" })) := by
  constructor
  · rintro (h | h | h)
    · exact advanceClock_of_not_playing h
    · exact advanceClock_of_none h
    · exact advanceClock_of_elapsed_nonpos h
  · intro color h1 hac h2
    constructor
    · intro hpos
      rw [advanceClock_active h1 hac h2, if_neg (by omega),
        max_eq_right (le_of_lt hpos)]
    · intro hneg
      rw [advanceClock_active h1 hac h2, if_pos hneg, max_eq_left hneg]

/-- Witness for C2 at a concrete input: a snapshot that is not playing is
returned unchanged. -/
theorem advanceClock_correct_witness :
    advanceClock
      { fen := "f", turn := Side.w, status := RoomStatus.waiting,
        resultWinner := none, resultReason := "", moves := [],
        lastMoveUci := none, whiteName := "A", blackName := "B",
        drawOfferBy := none, clocks := { w := 1000, b := 1000 },
        initialMs := 1000, incrementMs := 0, activeColor := none,
        lastTickAt := 0 } 5 =
      { fen := "f", turn := Side.w, status := RoomStatus.waiting,
        resultWinner := none, resultReason := "", moves := [],
        lastMoveUci := none, whiteName := "A", blackName := "B",
        drawOfferBy := none, clocks := { w := 1000, b := 1000 },
        initialMs := 1000, incrementMs := 0, activeColor := none,
        lastTickAt := 0 } :=
  (advanceClock_correct _ 5).1 (Or.inl (by decide))

/-- Claim C7: `advanceClock` is idempotent in the specified sense: for every
snapshot `s` and time `now`, advancing twice with the same `now` equals
advancing once. -/
theorem advanceClock_idempotent (s : RoomSnapshot) (now : Int) :
    advanceClock (advanceClock s now) now = advanceClock s now := by
  by_cases h1 : s.status = RoomStatus.playing
  · cases hac : s.activeColor with
    | none =>
      rw [advanceClock_of_none hac]
      exact advanceClock_of_none hac
    | some color =>
      by_cases h2 : now - s.lastTickAt ≤ 0
      · rw [advanceClock_of_elapsed_nonpos h2]
        exact advanceClock_of_elapsed_nonpos h2
      · have h2' : 0 < now - s.lastTickAt := by omega
        rw [advanceClock_active h1 hac h2']
        by_cases h3 : s.clocks.get color - (now - s.lastTickAt) ≤ 0
        · rw [if_pos h3]
          apply advanceClock_of_not_playing
          simp
        · rw [if_neg h3]
          apply advanceClock_of_elapsed_nonpos
          simp
  · rw [advanceClock_of_not_playing h1]
    exact advanceClock_of_not_playing h1

/-! ### Helper lemmas about the AI screen's `advanceClock` -/

theorem aiAdvanceClock_of_not_playing {s : AiGame.LiveState} {now : Int}
    (h : s.status ≠ LiveStatus.playing) : AiGame.advanceClock s now = s := by
  simp [AiGame.advanceClock, h]

theorem aiAdvanceClock_of_none {s : AiGame.LiveState} {now : Int}
    (h : s.activeColor = none) : AiGame.advanceClock s now = s := by
  unfold AiGame.advanceClock
  rw [h]
  split <;> rfl

theorem aiAdvanceClock_of_elapsed_nonpos {s : AiGame.LiveState} {now : Int}
    (h : now - s.lastTickAt ≤ 0) : AiGame.advanceClock s now = s := by
  unfold AiGame.advanceClock
  split
  · rfl
  · split
    · rfl
    · simp [h]

theorem aiAdvanceClock_active {s : AiGame.LiveState} {now : Int} {color : Side}
    (h1 : s.status = LiveStatus.playing) (hac : s.activeColor = some color)
    (h2 : 0 < now - s.lastTickAt) :
    AiGame.advanceClock s now =
      if s.clocks.get color - (now - s.lastTickAt) ≤ 0 then
        { s with
          clocks := s.clocks.set color (max 0 (s.clocks.get color - (now - s.lastTickAt)))
          lastTickAt := now
          status := LiveStatus.ended
          activeColor := none
          resultWinner := some (sideToLabel (oppositeSide color))
          resultReason := "Flag" }
      else
        { s with
          clocks := s.clocks.set color (max 0 (s.clocks.get color - (now - s.lastTickAt)))
          lastTickAt := now } := by
  unfold AiGame.advanceClock
  rw [hac]
  simp only [h1, ne_eq, not_true_eq_false, if_false, ite_false]
  rw [if_neg (by omega)]

/-- Claim C8: the AI-mode clock function and the friend-room clock function
are behaviorally equivalent: for every pair of states that agree on the
shared fields (status, clocks, activeColor, lastTickAt, resultWinner,
resultReason) and every time `now`, the two `advanceClock`s produce results
that again agree on those fields. -/
theorem advanceClock_modes_agree (ls : AiGame.LiveState) (rs : RoomSnapshot)
    (now : Int)
    (hst : liveStatusToRoom ls.status = rs.status)
    (hck : ls.clocks = rs.clocks)
    (hac : ls.activeColor = rs.activeColor)
    (hlt : ls.lastTickAt = rs.lastTickAt)
    (hw : ls.resultWinner = rs.resultWinner)
    (hr : ls.resultReason = rs.resultReason) :
    liveStatusToRoom (AiGame.advanceClock ls now).status = (advanceClock rs now).status ∧
    (AiGame.advanceClock ls now).clocks = (advanceClock rs now).clocks ∧
    (AiGame.advanceClock ls now).activeColor = (advanceClock rs now).activeColor ∧
    (AiGame.advanceClock ls now).lastTickAt = (advanceClock rs now).lastTickAt ∧
    (AiGame.advanceClock ls now).resultWinner = (advanceClock rs now).resultWinner ∧
    (AiGame.advanceClock ls now).resultReason = (advanceClock rs now).resultReason := by
  cases hs : ls.status with
  | ended =>
    have hrs : rs.status = RoomStatus.ended := by rw [← hst, hs]; rfl
    rw [aiAdvanceClock_of_not_playing (by rw [hs]; intro hcon; cases hcon),
      advanceClock_of_not_playing (by rw [hrs]; intro hcon; cases hcon)]
    exact ⟨hst, hck, hac, hlt, hw, hr⟩
  | playing =>
    have hrs : rs.status = RoomStatus.playing := by rw [← hst, hs]; rfl
    cases hc : ls.activeColor with
    | none =>
      have hrc : rs.activeColor = none := by rw [← hac, hc]
      rw [aiAdvanceClock_of_none hc, advanceClock_of_none hrc]
      exact ⟨hst, hck, hac, hlt, hw, hr⟩
    | some color =>
      have hrc : rs.activeColor = some color := by rw [← hac, hc]
      by_cases he : now - ls.lastTickAt ≤ 0
      · have he' : now - rs.lastTickAt ≤ 0 := by rw [← hlt]; exact he
        rw [aiAdvanceClock_of_elapsed_nonpos he, advanceClock_of_elapsed_nonpos he']
        exact ⟨hst, hck, hac, hlt, hw, hr⟩
      · have he1 : 0 < now - ls.lastTickAt := by omega
        have he2 : 0 < now - rs.lastTickAt := by rw [← hlt]; omega
        rw [aiAdvanceClock_active hs hc he1, advanceClock_active hrs hrc he2]
        by_cases h3 : ls.clocks.get color - (now - ls.lastTickAt) ≤ 0
        · have h3' : rs.clocks.get color - (now - rs.lastTickAt) ≤ 0 := by
            rw [← hck, ← hlt]; exact h3
          rw [if_pos h3, if_pos h3']
          exact ⟨rfl, by show ls.clocks.set color _ = rs.clocks.set color _; rw [hck, hlt],
            rfl, rfl, rfl, rfl⟩
        · have h3' : ¬ rs.clocks.get color - (now - rs.lastTickAt) ≤ 0 := by
            rw [← hck, ← hlt]; exact h3
          rw [if_neg h3, if_neg h3']
          refine ⟨?_, by show ls.clocks.set color _ = rs.clocks.set color _; rw [hck, hlt],
            ?_, rfl, ?_, ?_⟩
          · show liveStatusToRoom ls.status = rs.status
            exact hst
          · exact hac
          · exact hw
          · exact hr

/-- Witness for C8 at a concrete pair of agreeing states. -/
theorem advanceClock_modes_agree_witness :
    (liveStatusToRoom
        (AiGame.advanceClock
          { fen := "f", turn := Side.w, status := LiveStatus.playing,
            resultWinner := none, resultReason := "", moves := [],
            lastMoveUci := none, clocks := { w := 1000, b := 900 },
            initialMs := 1000, incrementMs := 0, activeColor := some Side.w,
            lastTickAt := 0 } 100).status =
      (advanceClock
          { fen := "g", turn := Side.b, status := RoomStatus.playing,
            resultWinner := none, resultReason := "", moves := [],
            lastMoveUci := none, whiteName := "A", blackName := "B",
            drawOfferBy := none, clocks := { w := 1000, b := 900 },
            initialMs := 1000, incrementMs := 0, activeColor := some Side.w,
            lastTickAt := 0 } 100).status) ∧
    (AiGame.advanceClock
          { fen := "f", turn := Side.w, status := LiveStatus.playing,
            resultWinner := none, resultReason := "", moves := [],
            lastMoveUci := none, clocks := { w := 1000, b := 900 },
            initialMs := 1000, incrementMs := 0, activeColor := some Side.w,
            lastTickAt := 0 } 100).clocks =
      (advanceClock
          { fen := "g", turn := Side.b, status := RoomStatus.playing,
            resultWinner := none, resultReason := "", moves := [],
            lastMoveUci := none, whiteName := "A", blackName := "B",
            drawOfferBy := none, clocks := { w := 1000, b := 900 },
            initialMs := 1000, incrementMs := 0, activeColor := some Side.w,
            lastTickAt := 0 } 100).clocks :=
  ⟨(advanceClock_modes_agree _ _ 100 rfl rfl rfl rfl rfl rfl).1,
    (advanceClock_modes_agree _ _ 100 rfl rfl rfl rfl rfl rfl).2.1⟩

/-! ### Helper lemmas about clocks and `hostApplyMove` -/

theorem Clocks.get_set_same (c : Clocks) (side : Side) (v : Int) :
    (c.set side v).get side = v := by
  cases side <;> rfl

theorem Clocks.get_set_opp (c : Clocks) (side : Side) (v : Int) :
    (c.set side v).get (oppositeSide side) = c.get (oppositeSide side) := by
  cases side <;> rfl

theorem advanceClock_frame (s : RoomSnapshot) (now : Int) :
    (advanceClock s now).whiteName = s.whiteName ∧
    (advanceClock s now).blackName = s.blackName ∧
    (advanceClock s now).initialMs = s.initialMs ∧
    (advanceClock s now).incrementMs = s.incrementMs := by
  by_cases h1 : s.status = RoomStatus.playing
  · cases hac : s.activeColor with
    | none =>
      rw [advanceClock_of_none hac]
      exact ⟨rfl, rfl, rfl, rfl⟩
    | some color =>
      by_cases h2 : now - s.lastTickAt ≤ 0
      · rw [advanceClock_of_elapsed_nonpos h2]
        exact ⟨rfl, rfl, rfl, rfl⟩
      · rw [advanceClock_active h1 hac (by omega)]
        by_cases h3 : s.clocks.get color - (now - s.lastTickAt) ≤ 0
        · rw [if_pos h3]
          exact ⟨rfl, rfl, rfl, rfl⟩
        · rw [if_neg h3]
          exact ⟨rfl, rfl, rfl, rfl⟩
  · rw [advanceClock_of_not_playing h1]
    exact ⟨rfl, rfl, rfl, rfl⟩

theorem hostApplyMove_success_eq {Pos : Type} (E : ChessEngine Pos)
    (s : RoomSnapshot) (uci : String) (moverSide : Side) (now now' : Int)
    {m : MoveObj} {p : Pos}
    (h1 : (advanceClock s now).status = RoomStatus.playing)
    (h2 : (advanceClock s now).turn = moverSide)
    (h3 : applyUci E (E.ofFen (advanceClock s now).fen) uci = some (m, p)) :
    hostApplyMove E s uci moverSide now now' =
      ({ advanceClock s now with
          fen := E.fen p
          turn := E.turn p
          moves := (advanceClock s now).moves ++
            [{ ply := (advanceClock s now).moves.length + 1
               side := moverSide
               san := m.san
               uci := m.fromSq ++ m.toSq ++ m.promotion.getD ""
               fenAfter := E.fen p }]
          lastMoveUci := some (m.fromSq ++ m.toSq ++ m.promotion.getD "")
          drawOfferBy := none
          clocks := (advanceClock s now).clocks.set moverSide
            ((advanceClock s now).clocks.get moverSide +
              (advanceClock s now).incrementMs)
          activeColor := match getOutcomeFromChess E p with
            | some _ => none
            | none => some (E.turn p)
          lastTickAt := now'
          status := match getOutcomeFromChess E p with
            | some _ => RoomStatus.ended
            | none => RoomStatus.playing
          resultWinner := match getOutcomeFromChess E p with
            | some o => o.winner
            | none => none
          resultReason := match getOutcomeFromChess E p with
            | some o => o.reason
            | none => "" }, true) := by
  unfold hostApplyMove
  simp [h1, h2, h3]

/-- Claim C3: on a legal move by the side to move of a playing snapshot
(checked, as the code does, on the clock-advanced snapshot), `hostApplyMove`
accepts the move, appends exactly one record to `moves`, updates `fen`,
`turn` and `lastMoveUci`, clears `drawOfferBy`, credits the increment to the
mover's clock only, and then either applies the outcome resolver's terminal
result or keeps the game playing with `activeColor` equal to the new turn
and `lastTickAt` refreshed. -/
theorem hostApplyMove_success {Pos : Type} (E : ChessEngine Pos)
    (s : RoomSnapshot) (uci : String) (moverSide : Side) (now now' : Int)
    {m : MoveObj} {p : Pos}
    (h1 : (advanceClock s now).status = RoomStatus.playing)
    (h2 : (advanceClock s now).turn = moverSide)
    (h3 : applyUci E (E.ofFen (advanceClock s now).fen) uci = some (m, p)) :
    (hostApplyMove E s uci moverSide now now').2 = true ∧
    (hostApplyMove E s uci moverSide now now').1.moves =
      (advanceClock s now).moves ++
        [{ ply := (advanceClock s now).moves.length + 1
           side := moverSide
           san := m.san
           uci := m.fromSq ++ m.toSq ++ m.promotion.getD ""
           fenAfter := E.fen p }] ∧
    (hostApplyMove E s uci moverSide now now').1.fen = E.fen p ∧
    (hostApplyMove E s uci moverSide now now').1.turn = E.turn p ∧
    (hostApplyMove E s uci moverSide now now').1.lastMoveUci =
      some (m.fromSq ++ m.toSq ++ m.promotion.getD "") ∧
    (hostApplyMove E s uci moverSide now now').1.drawOfferBy = none ∧
    (hostApplyMove E s uci moverSide now now').1.clocks.get moverSide =
      (advanceClock s now).clocks.get moverSide +
        (advanceClock s now).incrementMs ∧
    (hostApplyMove E s uci moverSide now now').1.clocks.get
        (oppositeSide moverSide) =
      (advanceClock s now).clocks.get (oppositeSide moverSide) ∧
    (hostApplyMove E s uci moverSide now now').1.lastTickAt = now' ∧
    (∀ o : GameOutcome, getOutcomeFromChess E p = some o →
      (hostApplyMove E s uci moverSide now now').1.status = RoomStatus.ended ∧
      (hostApplyMove E s uci moverSide now now').1.resultWinner = o.winner ∧
      (hostApplyMove E s uci moverSide now now').1.resultReason = o.reason ∧
      (hostApplyMove E s uci moverSide now now').1.activeColor = none) ∧
    (getOutcomeFromChess E p = none →
      (hostApplyMove E s uci moverSide now now').1.status = RoomStatus.playing ∧
      (hostApplyMove E s uci moverSide now now').1.activeColor =
        some (E.turn p) ∧
      (hostApplyMove E s uci moverSide now now').1.resultWinner = none ∧
      (hostApplyMove E s uci moverSide now now').1.resultReason = "") := by
  rw [hostApplyMove_success_eq E s uci moverSide now now' h1 h2 h3]
  refine ⟨rfl, rfl, rfl, rfl, rfl, rfl, ?_, ?_, rfl, ?_, ?_⟩
  · exact Clocks.get_set_same _ _ _
  · exact Clocks.get_set_opp _ _ _
  · intro o ho
    simp [ho]
  · intro ho
    simp [ho]

/-- A minimal concrete oracle used to instantiate the engine-generic
theorems at a closed input: every move is legal and no position is
terminal. -/
def demoEngine : ChessEngine Unit where
  ofFen := fun _ => ()
  fen := fun _ => "after"
  turn := fun _ => Side.b
  move := fun _ _ _ _ =>
    some ({ san := "e4", fromSq := "e2", toSq := "e4", promotion := none }, ())
  isGameOver := fun _ => false
  isCheckmate := fun _ => false
  isStalemate := fun _ => false
  isThreefoldRepetition := fun _ => false
  isInsufficientMaterial := fun _ => false

/-- A concrete playing snapshot, white to move, clock freshly reconciled. -/
def playingSnap : RoomSnapshot :=
  { fen := "startpos"
    turn := Side.w
    status := RoomStatus.playing
    resultWinner := none
    resultReason := ""
    moves := []
    lastMoveUci := none
    whiteName := "A"
    blackName := "B"
    drawOfferBy := none
    clocks := { w := 1000, b := 1000 }
    initialMs := 1000
    incrementMs := 3000
    activeColor := some Side.w
    lastTickAt := 0 }

/-- Witness for C3 at a concrete input: the move is accepted and the mover's
clock is credited the 3000 ms increment while the other clock is unchanged. -/
theorem hostApplyMove_success_witness :
    (advanceClock playingSnap 0).status = RoomStatus.playing ∧
    (advanceClock playingSnap 0).turn = Side.w ∧
    (hostApplyMove demoEngine playingSnap "e2e4" Side.w 0 0).2 = true ∧
    (hostApplyMove demoEngine playingSnap "e2e4" Side.w 0 0).1.clocks.get
      Side.w = 4000 ∧
    (hostApplyMove demoEngine playingSnap "e2e4" Side.w 0 0).1.clocks.get
        (oppositeSide Side.w) = 1000 := by
  have h := hostApplyMove_success demoEngine playingSnap "e2e4" Side.w 0 0
    (m := { san := "e4", fromSq := "e2", toSq := "e4", promotion := none })
    (p := ()) rfl rfl rfl
  refine ⟨rfl, rfl, h.1, ?_, ?_⟩
  · rw [h.2.2.2.2.2.2.1]
    decide
  · rw [h.2.2.2.2.2.2.2.1]
    decide

/-- Counterexample to claim C4 as stated: at a playing snapshot with white
to move and 100 ms elapsed, a move submitted by black is rejected, yet the
returned snapshot is mutated — white's clock dropped from 1000 to 900 and
`lastTickAt` moved from 0 to 100, because `hostApplyMove` runs
`advanceClock` before rejecting. -/
theorem hostApplyMove_reject_mutates_clock :
    (hostApplyMove demoEngine playingSnap "e7e5" Side.b 100 100).2 = false ∧
    playingSnap.turn ≠ Side.b ∧
    playingSnap.clocks.get Side.w = 1000 ∧
    playingSnap.lastTickAt = 0 ∧
    (hostApplyMove demoEngine playingSnap "e7e5" Side.b 100 100).1.clocks.get
      Side.w = 900 ∧
    (hostApplyMove demoEngine playingSnap "e7e5" Side.b 100 100).1.lastTickAt
      = 100 := by
  decide

theorem hostApplyMove_rejected_eq {Pos : Type} (E : ChessEngine Pos)
    (s : RoomSnapshot) (uci : String) (moverSide : Side) (now now' : Int)
    (h : (advanceClock s now).status ≠ RoomStatus.playing ∨
         (advanceClock s now).turn ≠ moverSide ∨
         applyUci E (E.ofFen (advanceClock s now).fen) uci = none) :
    hostApplyMove E s uci moverSide now now' = (advanceClock s now, false) := by
  unfold hostApplyMove
  by_cases hst : (advanceClock s now).status = RoomStatus.playing
  · rcases h with h | h | h
    · exact absurd hst h
    · simp [hst, h]
    · by_cases htn : (advanceClock s now).turn = moverSide
      · simp [hst, htn, h]
      · simp [hst, htn]
  · simp [hst]

/-- Claim C4 as amended: a rejected move event (game not playing on the
advanced snapshot, wrong side, or illegal move) returns exactly
`advanceClock` of the input snapshot with `accepted = false` — beyond the
clock advance that the handler runs first, no field is mutated; in
particular, when the input snapshot is not in status "playing" the snapshot
is left completely unchanged. -/
theorem hostApplyMove_reject {Pos : Type} (E : ChessEngine Pos)
    (s : RoomSnapshot) (uci : String) (moverSide : Side) (now now' : Int)
    (h : (advanceClock s now).status ≠ RoomStatus.playing ∨
         (advanceClock s now).turn ≠ moverSide ∨
         applyUci E (E.ofFen (advanceClock s now).fen) uci = none) :
    hostApplyMove E s uci moverSide now now' = (advanceClock s now, false) ∧
    (s.status ≠ RoomStatus.playing →
      hostApplyMove E s uci moverSide now now' = (s, false)) := by
  have main := hostApplyMove_rejected_eq E s uci moverSide now now' h
  refine ⟨main, ?_⟩
  intro hns
  rw [main, advanceClock_of_not_playing hns]

/-- A concrete snapshot that is still waiting for the guest. -/
def waitingSnap : RoomSnapshot :=
  { fen := "startpos"
    turn := Side.w
    status := RoomStatus.waiting
    resultWinner := none
    resultReason := ""
    moves := []
    lastMoveUci := none
    whiteName := "A"
    blackName := "B"
    drawOfferBy := none
    clocks := { w := 1000, b := 1000 }
    initialMs := 1000
    incrementMs := 3000
    activeColor := none
    lastTickAt := 0 }

/-- Witness for the amended C4 at a concrete input: a move against a
waiting room is rejected and the snapshot is completely unchanged. -/
theorem hostApplyMove_reject_witness :
    hostApplyMove demoEngine waitingSnap "e2e4" Side.w 100 100 =
      (waitingSnap, false) :=
  (hostApplyMove_reject demoEngine waitingSnap "e2e4" Side.w 100 100
    (Or.inl (by decide))).2 (by decide)

/-- Claim C9: `hostApplyMove` never changes the room's configuration and
identity fields — for every engine, snapshot, move and mover, accepted or
rejected, `whiteName`, `blackName`, `initialMs` and `incrementMs` of the
result equal those of the input. -/
theorem hostApplyMove_config_frame {Pos : Type} (E : ChessEngine Pos)
    (s : RoomSnapshot) (uci : String) (moverSide : Side) (now now' : Int) :
    (hostApplyMove E s uci moverSide now now').1.whiteName = s.whiteName ∧
    (hostApplyMove E s uci moverSide now now').1.blackName = s.blackName ∧
    (hostApplyMove E s uci moverSide now now').1.initialMs = s.initialMs ∧
    (hostApplyMove E s uci moverSide now now').1.incrementMs = s.incrementMs := by
  obtain ⟨hw, hb, hi, hc⟩ := advanceClock_frame s now
  by_cases hst : (advanceClock s now).status = RoomStatus.playing
  · by_cases htn : (advanceClock s now).turn = moverSide
    · cases hmv : applyUci E (E.ofFen (advanceClock s now).fen) uci with
      | none =>
        rw [hostApplyMove_rejected_eq E s uci moverSide now now'
          (Or.inr (Or.inr hmv))]
        exact ⟨hw, hb, hi, hc⟩
      | some pr =>
        rw [hostApplyMove_success_eq E s uci moverSide now now' hst htn
          (m := pr.1) (p := pr.2) (by rw [hmv])]
        exact ⟨hw, hb, hi, hc⟩
    · rw [hostApplyMove_rejected_eq E s uci moverSide now now'
        (Or.inr (Or.inl htn))]
      exact ⟨hw, hb, hi, hc⟩
  · rw [hostApplyMove_rejected_eq E s uci moverSide now now' (Or.inl hst)]
    exact ⟨hw, hb, hi, hc⟩

/-- A concrete snapshot of a finished game (white won by checkmate). -/
def endedSnap : RoomSnapshot :=
  { fen := "matefen"
    turn := Side.b
    status := RoomStatus.ended
    resultWinner := some WinnerTag.white
    resultReason := "Checkmate"
    moves := []
    lastMoveUci := none
    whiteName := "A"
    blackName := "B"
    drawOfferBy := none
    clocks := { w := 1000, b := 1000 }
    initialMs := 1000
    incrementMs := 0
    activeColor := none
    lastTickAt := 0 }

/-- Claim C1 fails on the code: the host's data handler has no ended-status
guard on the `join`, `draw-offer`, `draw-response` and `resign` branches.
At a concrete ended snapshot, a further `join` message mutates the snapshot
and reverts `status` from "ended" to "playing", and a further `resign`
message overwrites the recorded result. -/
theorem hostHandleData_join_reverts_ended :
    endedSnap.status = RoomStatus.ended ∧
    hostHandleData demoEngine Side.w "Host" endedSnap
      (HostEvent.join "Guest") 50 50 ≠ endedSnap ∧
    (hostHandleData demoEngine Side.w "Host" endedSnap
      (HostEvent.join "Guest") 50 50).status = RoomStatus.playing ∧
    (hostHandleData demoEngine Side.w "Host" endedSnap
      HostEvent.resign 50 50).resultReason = "Resign" := by
  decide

/-- Claim C5 fails on the code: neither the host's `draw-response` branch
nor `onAcceptDraw` checks that a draw offer is pending. At a concrete
playing snapshot with `drawOfferBy = null`, a `draw-response` with
`accepted = true` (and likewise the local accept action) terminates the
game with draw/"Agreement" instead of changing nothing. -/
theorem drawResponse_without_offer_ends_game :
    playingSnap.drawOfferBy = none ∧
    playingSnap.status = RoomStatus.playing ∧
    (hostHandleData demoEngine Side.w "Host" playingSnap
      (HostEvent.drawResponse true) 50 50).status = RoomStatus.ended ∧
    (hostHandleData demoEngine Side.w "Host" playingSnap
      (HostEvent.drawResponse true) 50 50).resultWinner =
      some WinnerTag.draw ∧
    (hostHandleData demoEngine Side.w "Host" playingSnap
      (HostEvent.drawResponse true) 50 50).resultReason = "Agreement" ∧
    onAcceptDrawHost playingSnap ≠ playingSnap := by
  decide

/-- Claim C6: the outcome resolver returns null exactly when the oracle
reports the position non-terminal; on a terminal position it maps, in
priority order, checkmate to a win for the side that just moved (the
opposite of the side to move) with reason "Checkmate", then stalemate,
threefold repetition and insufficient material to draws with the matching
reasons, and any other terminal condition to a draw with reason "Draw". -/
theorem getOutcomeFromChess_correct {Pos : Type} (E : ChessEngine Pos)
    (g : Pos) :
    (getOutcomeFromChess E g = none ↔ E.isGameOver g = false) ∧
    (E.isGameOver g = true →
      (E.isCheckmate g = true →
        getOutcomeFromChess E g =
          some { winner := some (sideToLabel (oppositeSide (E.turn g)))
                 reason := "Checkmate" }) ∧
      (E.isCheckmate g = false → E.isStalemate g = true →
        getOutcomeFromChess E g =
          some { winner := some WinnerTag.draw, reason := "Stalemate" }) ∧
      (E.isCheckmate g = false → E.isStalemate g = false →
        E.isThreefoldRepetition g = true →
        getOutcomeFromChess E g =
          some { winner := some WinnerTag.draw
                 reason := "Threefold repetition" }) ∧
      (E.isCheckmate g = false → E.isStalemate g = false →
        E.isThreefoldRepetition g = false → E.isInsufficientMaterial g = true →
        getOutcomeFromChess E g =
          some { winner := some WinnerTag.draw
                 reason := "Insufficient material" }) ∧
      (E.isCheckmate g = false → E.isStalemate g = false →
        E.isThreefoldRepetition g = false →
        E.isInsufficientMaterial g = false →
        getOutcomeFromChess E g =
          some { winner := some WinnerTag.draw, reason := "Draw" })) := by
  constructor
  · cases hgo : E.isGameOver g with
    | false => simp [getOutcomeFromChess, hgo]
    | true =>
      simp only [getOutcomeFromChess, hgo, Bool.true_eq_false, iff_false,
        not_true_eq_false, if_false, ite_false]
      repeat' split
      all_goals simp
  · intro hgo
    refine ⟨?_, ?_, ?_, ?_, ?_⟩
    · intro hcm
      cases ht : E.turn g <;>
        simp [getOutcomeFromChess, hgo, hcm, ht, sideToLabel, oppositeSide]
    · intro hcm hsm
      simp [getOutcomeFromChess, hgo, hcm, hsm]
    · intro hcm hsm htf
      simp [getOutcomeFromChess, hgo, hcm, hsm, htf]
    · intro hcm hsm htf him
      simp [getOutcomeFromChess, hgo, hcm, hsm, htf, him]
    · intro hcm hsm htf him
      simp [getOutcomeFromChess, hgo, hcm, hsm, htf, him]

/-- Witness for C6 at a concrete input: the demo oracle reports the position
non-terminal, so the resolver returns null. -/
theorem getOutcomeFromChess_correct_witness :
    getOutcomeFromChess demoEngine () = none :=
  (getOutcomeFromChess_correct demoEngine ()).1.mpr rfl

/-- Claim C10: `saveGame` stores the new game as the first element of the
persisted list, the stored list has at most 200 entries, and `loadGames`
returns the empty list when the stored value is missing or unparseable and
otherwise a permutation of the persisted games sorted by `createdAt`
descending. -/
theorem storage_correct (store : StoredValue) (g : SavedGame)
    (l : List SavedGame) :
    (saveGame store g).2.head? = some g ∧
    (saveGame store g).2.length ≤ 200 ∧
    (saveGame store g).1 = StoredValue.games (saveGame store g).2 ∧
    loadGames StoredValue.missing = [] ∧
    loadGames StoredValue.unparseable = [] ∧
    (loadGames (StoredValue.games l)).Perm l ∧
    (loadGames (StoredValue.games l)).Pairwise
      (fun a b => b.createdAt ≤ a.createdAt) := by
  refine ⟨?_, ?_, rfl, rfl, rfl, ?_, ?_⟩
  · show ((g :: loadGames store).take 200).head? = some g
    rw [show (200 : Nat) = 199 + 1 from rfl, List.take_succ_cons]
    rfl
  · show ((g :: loadGames store).take 200).length ≤ 200
    rw [List.length_take]
    exact min_le_left _ _
  · exact List.mergeSort_perm l byCreatedAtDesc
  · have htrans : ∀ a b c : SavedGame, byCreatedAtDesc a b →
        byCreatedAtDesc b c → byCreatedAtDesc a c := by
      intro a b c hab hbc
      simp only [byCreatedAtDesc, decide_eq_true_eq] at *
      omega
    have htotal : ∀ a b : SavedGame,
        byCreatedAtDesc a b || byCreatedAtDesc b a := by
      intro a b
      simp only [byCreatedAtDesc, Bool.or_eq_true, decide_eq_true_eq]
      omega
    have hs := List.sorted_mergeSort htrans htotal l
    exact hs.imp (fun h => by
      simpa [byCreatedAtDesc, decide_eq_true_eq] using h)

end SyydChess
